import Mathlib

/-!
Verification of the tabular report synthesis engine
(`src/excel-report-generator/report-generator.py`).

Python strings are modelled as lists of characters (`PyStr`); Python
`dict` registries are modelled as functions into `Option`; code that can
raise an exception is modelled in `Except`.
-/

abbrev PyStr := List Char

/-! ## Address translator: the `a1` helper inside `main`

The Python loop

    col_idx += 1
    while col_idx:
        col_idx, remainder = divmod(col_idx - 1, 26)
        col_letters = chr(65 + remainder) + col_letters

prepends the least-significant letter on each pass; equivalently the
letters of `n` (for `n ≥ 1`) are the letters of `(n-1)/26` followed by
`chr(65 + (n-1) % 26)`.  The recursion is bounded by a fuel argument
equal to the starting value, which always suffices since the running
value strictly decreases. -/

def a1LettersAux : Nat → Nat → List Char
  | _, 0 => []
  | 0, _ + 1 => []
  | fuel + 1, n + 1 => a1LettersAux fuel (n / 26) ++ [Char.ofNat (65 + n % 26)]

/-- The column-letter part of the `a1` helper: letters for 0-based column
index `colIdx` (bijective base-26). -/
def to_letters (colIdx : Nat) : PyStr := a1LettersAux (colIdx + 1) (colIdx + 1)

/-- Decimal rendering of a natural number, as Python `str(n)` produces. -/
def natCharsAux : Nat → Nat → List Char
  | _, 0 => []
  | 0, _ + 1 => []
  | fuel + 1, n + 1 => natCharsAux fuel ((n + 1) / 10) ++ [Char.ofNat (48 + (n + 1) % 10)]

def natChars (m : Nat) : PyStr := if m = 0 then ['0'] else natCharsAux m m

/-- `a1(col_idx, row_idx)` from `main`: column letters followed by the
1-based row number. -/
def a1 (colIdx rowIdx : Nat) : PyStr := to_letters colIdx ++ natChars (rowIdx + 1)

/-- Modelled from the spec: `from_letters`, the inverse of the
column-letter encoding, is named by the spec's testable properties but
has no implementation in the source.  Standard bijective base-26
decoding: fold the letters accumulating `acc * 26 + (letter - 'A' + 1)`,
then subtract one to return to 0-based column indices. -/
def from_letters (s : PyStr) : Nat :=
  (s.foldl (fun acc c => acc * 26 + (c.toNat - 64)) 0) - 1

lemma char_upper_toNat : ∀ r < 26, (Char.ofNat (65 + r)).toNat = 65 + r := by decide

lemma a1LettersAux_decode :
    ∀ fuel n a, n ≤ fuel →
      List.foldl (fun acc c => acc * 26 + (c.toNat - 64)) a (a1LettersAux fuel n)
        = a * 26 ^ (a1LettersAux fuel n).length + n := by
  intro fuel
  induction fuel with
  | zero =>
    intro n a h
    interval_cases n
    simp [a1LettersAux]
  | succ f ih =>
    intro n a h
    match n with
    | 0 => simp [a1LettersAux]
    | m + 1 =>
      have hm : m ≤ f := Nat.lt_succ_iff.mp h
      have hdiv : m / 26 ≤ f := le_trans (Nat.div_le_self m 26) hm
      rw [a1LettersAux, List.foldl_append, List.length_append, ih (m / 26) a hdiv]
      simp only [List.foldl_cons, List.foldl_nil, List.length_singleton]
      rw [char_upper_toNat (m % 26) (Nat.mod_lt m (by norm_num))]
      have hsub : 65 + m % 26 - 64 = m % 26 + 1 := by omega
      rw [hsub]
      calc (a * 26 ^ (a1LettersAux f (m / 26)).length + m / 26) * 26 + (m % 26 + 1)
          = a * (26 ^ (a1LettersAux f (m / 26)).length * 26)
              + (26 * (m / 26) + m % 26) + 1 := by ring
        _ = a * 26 ^ ((a1LettersAux f (m / 26)).length + 1) + (m + 1) := by
              rw [Nat.div_add_mod, pow_succ]
              ring

/-- C1: column-letter encoding is bijective base-26: decoding the
letters produced by the `a1` helper returns the column index, and the
listed example indices map to "A", "Z", "AA", "ZZ", "AAA". -/
theorem c1_column_letters_bijective_base26 :
    (∀ c : Nat, from_letters (to_letters c) = c) ∧
    to_letters 0 = "A".data ∧ to_letters 25 = "Z".data ∧
    to_letters 26 = "AA".data ∧ to_letters 701 = "ZZ".data ∧
    to_letters 702 = "AAA".data := by
  refine ⟨?_, by decide, by decide, by decide, by decide, by decide⟩
  intro c
  unfold from_letters to_letters
  rw [a1LettersAux_decode (c + 1) (c + 1) 0 (le_refl _)]
  simp

/-! ## Range reconstruction in `main`

    rows, cols = piv_df.shape
    start = a1(0, 0)
    end = a1(cols - 1, rows)
-/

/-- The table range `main` reconstructs for a pivot result with `rows`
data rows and `cols` columns. -/
def chart_range (rows cols : Nat) : PyStr × PyStr := (a1 0 0, a1 (cols - 1) rows)

/-- C2: for a pivot result with R data rows and C columns, the
reconstructed range runs from "A1" (coordinate (0,0)) to coordinate
(C−1, R); the bottom-right symbolic row number renders as R+1. -/
theorem c2_chart_range_span (R C : Nat) (h : 1 ≤ C) :
    chart_range R C = ("A1".data, to_letters (C - 1) ++ natChars (R + 1)) := by
  have h0 : a1 0 0 = "A1".data := by decide
  unfold chart_range
  rw [h0]
  rfl

/-- Witness for C2 at R = 3 data rows, C = 2 columns: the bottom-right
symbolic row number is 4 (header plus three data rows). -/
theorem c2_chart_range_span_witness :
    1 ≤ 2 ∧ chart_range 3 2 = ("A1".data, to_letters 1 ++ natChars 4) :=
  ⟨by decide, c2_chart_range_span 3 2 (by decide)⟩

/-! ## Column inference: `auto_number_format` and `best_width` -/

/-- Column dtype as the pandas predicates in `auto_number_format`
partition it: `is_datetime64_any_dtype`, `is_bool_dtype`,
`is_integer_dtype`, `is_float_dtype`, and everything else (object/text
or mixed). -/
inductive DType
  | datetime
  | boolean
  | integer
  | floating
  | text
  | mixed
deriving DecidableEq

/-- Python `str.lower` restricted to ASCII letters, which is all the
keyword test needs. -/
def toLowerAscii (s : PyStr) : PyStr :=
  s.map fun c => if 'A' ≤ c ∧ c ≤ 'Z' then Char.ofNat (c.toNat + 32) else c

/-- Python substring membership `needle in hay`. -/
def containsSub (needle : PyStr) : PyStr → Bool
  | [] => needle.isEmpty
  | c :: rest => needle.isPrefixOf (c :: rest) || containsSub needle rest

def currencyKeywords : List PyStr :=
  ["amount".data, "revenue".data, "price".data, "cost".data, "total".data, "sales".data]

/-- `auto_number_format(series)`: datetime → date token; boolean → none;
integer/float → currency token when the lowercased name contains a
currency keyword, else the generic numeric token; all else → none. -/
def auto_number_format (dtype : DType) (name : PyStr) : Option PyStr :=
  match dtype with
  | .datetime => some "yyyy-mm-dd".data
  | .boolean => none
  | .integer | .floating =>
      if currencyKeywords.any (fun k => containsSub k (toLowerAscii name)) then
        some "$#,##0.00".data
      else
        some "#,##0.00".data
  | .text => none
  | .mixed => none

/-- C3: number-format inference is a total function of dtype and name:
datetime columns always get "yyyy-mm-dd", boolean columns none, numeric
columns the currency token exactly when the name case-insensitively
contains a keyword from the fixed set (else the generic token), and all
other kinds none; in particular a float column "Total Sales" gets the
currency token and an integer column "Quantity" the generic token. -/
theorem c3_number_format_total_by_dtype_and_name :
    (∀ name, auto_number_format .datetime name = some "yyyy-mm-dd".data) ∧
    (∀ name, auto_number_format .boolean name = none) ∧
    (∀ name, auto_number_format .integer name =
      if currencyKeywords.any (fun k => containsSub k (toLowerAscii name)) then
        some "$#,##0.00".data
      else some "#,##0.00".data) ∧
    (∀ name, auto_number_format .floating name =
      if currencyKeywords.any (fun k => containsSub k (toLowerAscii name)) then
        some "$#,##0.00".data
      else some "#,##0.00".data) ∧
    (∀ name, auto_number_format .text name = none) ∧
    (∀ name, auto_number_format .mixed name = none) ∧
    auto_number_format .floating "Total Sales".data = some "$#,##0.00".data ∧
    auto_number_format .integer "Quantity".data = some "#,##0.00".data :=
  ⟨fun _ => rfl, fun _ => rfl, fun _ => rfl, fun _ => rfl, fun _ => rfl,
   fun _ => rfl, by decide, by decide⟩

/-- `best_width(series, max_width=60)`:
`min(max([len(str(series.name))] + [len(str(x)) for x in series]) + 2, max_width)`.
The cells are already the rendered text of each value (`series.astype(str)`). -/
def best_width (name : PyStr) (cells : List PyStr) (maxWidth : Nat := 60) : Nat :=
  min ((cells.map List.length).foldl max name.length + 2) maxWidth

lemma foldl_max_mono {l l' : List Nat} (h : List.Forall₂ (· ≤ ·) l l') :
    ∀ a a' : Nat, a ≤ a' → l.foldl max a ≤ l'.foldl max a' := by
  induction h with
  | nil => intro a a' ha; simpa using ha
  | cons hab _ ih =>
      intro a a' ha
      simp only [List.foldl_cons]
      exact ih _ _ (max_le_max ha hab)

lemma forall₂_map_length {cells cells' : List PyStr}
    (h : List.Forall₂ (fun a b : PyStr => a.length ≤ b.length) cells cells') :
    List.Forall₂ (· ≤ ·) (cells.map List.length) (cells'.map List.length) := by
  induction h with
  | nil => exact List.Forall₂.nil
  | cons hab _ ih => exact List.Forall₂.cons hab ih

/-- C8: the computed width equals the maximum of the header length and
all rendered cell lengths plus padding 2, capped at `maxWidth`; it never
exceeds the cap, and lengthening cells pointwise (no cell nor the header
shortened) never decreases it. -/
theorem c8_best_width_monotone_bounded (name : PyStr) (cells cells' : List PyStr)
    (maxW : Nat)
    (h : List.Forall₂ (fun a b : PyStr => a.length ≤ b.length) cells cells') :
    best_width name cells maxW ≤ best_width name cells' maxW ∧
    best_width name cells maxW ≤ maxW ∧
    best_width name cells maxW =
      min ((cells.map List.length).foldl max name.length + 2) maxW := by
  refine ⟨?_, min_le_right _ _, rfl⟩
  exact min_le_min
    (Nat.add_le_add_right
      (foldl_max_mono (forall₂_map_length h) _ _ (le_refl _)) 2)
    (le_refl maxW)

/-- Witness for C8: lengthening the second cell of ["ab", "c"] to "cdef"
does not decrease the computed width. -/
theorem c8_best_width_monotone_bounded_witness :
    best_width "Qty".data ["ab".data, "c".data] 60
        ≤ best_width "Qty".data ["ab".data, "cdef".data] 60 ∧
    best_width "Qty".data ["ab".data, "c".data] 60 ≤ 60 ∧
    best_width "Qty".data ["ab".data, "c".data] 60 =
      min ((["ab".data, "c".data].map List.length).foldl max
        ("Qty".data).length + 2) 60 :=
  c8_best_width_monotone_bounded "Qty".data ["ab".data, "c".data]
    ["ab".data, "cdef".data] 60
    (List.Forall₂.cons (by decide) (List.Forall₂.cons (by decide) List.Forall₂.nil))

/-! ## Sheet naming in `main`

    name = p.stem[:31]  # Excel sheet name limit
    sheet_name = f"{args.sheet_prefix}{name}"
    ...
    sname = f"Summary - {piv_name}"[:31]
-/

/-- Per-source sheet name: the stem is truncated to 31 characters first
and the prefix concatenated afterwards. -/
def source_sheet_name (pfx stem : PyStr) : PyStr := pfx ++ stem.take 31

/-- Pivot sheet name: the "Summary - " prefix is applied first and the
result truncated to 31 characters. -/
def pivot_sheet_name (pivName : PyStr) : PyStr :=
  ("Summary - ".data ++ pivName).take 31

/-- C9: per-source sheet names truncate the stem to 31 characters before
prefixing, so a non-empty prefix can push the final name past 31
characters, while pivot sheet names are truncated to 31 characters after
the "Summary - " prefix is attached. -/
theorem c9_sheet_name_truncation :
    (∀ pfx stem, source_sheet_name pfx stem = pfx ++ stem.take 31) ∧
    (∃ pfx stem, pfx ≠ [] ∧ 31 < (source_sheet_name pfx stem).length) ∧
    (∀ nm, pivot_sheet_name nm = ("Summary - ".data ++ nm).take 31 ∧
      (pivot_sheet_name nm).length ≤ 31) := by
  refine ⟨fun _ _ => rfl, ⟨"P".data, "abcdefghijklmnopqrstuvwxyz01234".data, by decide⟩,
    fun nm => ⟨rfl, ?_⟩⟩
  simpa [pivot_sheet_name] using List.length_take_le 31 ("Summary - ".data ++ nm)

/-! ## Data model for frames and the dataset registry -/

/-- A cell value: text or integer.  Key columns hold either; value
columns aggregated by the pivot hold integers. -/
inductive Val
  | vstr (s : PyStr)
  | vint (n : Int)
deriving DecidableEq, Repr

/-- An in-memory dataset: named columns and rectangular rows. -/
structure Frame where
  columns : List PyStr
  rows : List (List Val)
deriving DecidableEq, Repr

/-- The dataset registry built by `main`:

    for p in input_paths:
        name = p.stem[:31]
        ...
        frames[name] = df

modelled as successive dictionary updates starting from the empty dict. -/
def load_registry (inputs : List (PyStr × Frame)) : PyStr → Option Frame :=
  inputs.foldl
    (fun reg entry => fun k => if k = entry.1.take 31 then some entry.2 else reg k)
    (fun _ => none)

/-- C10: the registry is keyed by the 31-character-truncated stem; an
input loaded later under the same truncated stem silently replaces the
earlier dataset, other keys are untouched, and a pivot specification
whose source names that stem resolves (via the registry lookup
`frames[src]` in `build_pivots`) to the last-loaded dataset. -/
theorem c10_registry_truncated_stem_last_wins
    (inputs : List (PyStr × Frame)) (stem : PyStr) (df : Frame) (k src : PyStr)
    (hk : k ≠ stem.take 31) (hsrc : src = stem.take 31) :
    load_registry (inputs ++ [(stem, df)]) (stem.take 31) = some df ∧
    load_registry (inputs ++ [(stem, df)]) k = load_registry inputs k ∧
    load_registry (inputs ++ [(stem, df)]) src = some df := by
  have hstep : load_registry (inputs ++ [(stem, df)]) =
      fun q => if q = stem.take 31 then some df else load_registry inputs q := by
    unfold load_registry
    rw [List.foldl_append]
    rfl
  refine ⟨?_, ?_, ?_⟩
  · rw [hstep]; simp
  · rw [hstep]; simp [hk]
  · rw [hstep]; simp [hsrc]

/-- Witness for C10: two inputs whose stems share the same 31-character
truncation; the lookup returns the second dataset. -/
theorem c10_registry_truncated_stem_last_wins_witness :
    "other".data ≠ ("sales".data).take 31 ∧
    "sales".data = ("sales".data).take 31 ∧
    (load_registry ([("sales".data, Frame.mk [] [])] ++
        [("sales".data, Frame.mk ["x".data] [])]) (("sales".data).take 31) =
      some (Frame.mk ["x".data] []) ∧
    load_registry ([("sales".data, Frame.mk [] [])] ++
        [("sales".data, Frame.mk ["x".data] [])]) "other".data =
      load_registry [("sales".data, Frame.mk [] [])] "other".data ∧
    load_registry ([("sales".data, Frame.mk [] [])] ++
        [("sales".data, Frame.mk ["x".data] [])]) "sales".data =
      some (Frame.mk ["x".data] [])) :=
  ⟨by decide, by decide,
   c10_registry_truncated_stem_last_wins [("sales".data, Frame.mk [] [])]
     "sales".data (Frame.mk ["x".data] []) "other".data "sales".data
     (by decide) (by decide)⟩

/-! ## Pivot synthesizer: `build_pivots`

The per-spec aggregation is the library call `pd.pivot_table(...)`,
which is not part of this repository; it is modelled from the spec
below.  `build_pivots` itself (source resolution, warning, skip,
naming) is embedded from the source. -/

/-- The values of column `pos` down a frame, in row order. -/
def column_values (f : Frame) (pos : Nat) : List Val :=
  f.rows.map fun r => (r.get? pos).getD (.vstr [])

def valToInt : Val → Int
  | .vint n => n
  | .vstr _ => 0

/-- The rows of `f` whose index-key cell equals `a` and (when a columns
key is present at `cPos`) whose columns-key cell equals `c`. -/
def group_rows (f : Frame) (ixPos : Nat) (cPos : Option Nat) (a c : Val) :
    List (List Val) :=
  f.rows.filter fun r =>
    decide ((r.get? ixPos).getD (.vstr []) = a) &&
      match cPos with
      | some j => decide ((r.get? j).getD (.vstr []) = c)
      | none => true

/-- One output cell: the aggregated value of the group when the group is
non-empty, the fill value otherwise. -/
def aggCell (f : Frame) (ixPos vPos : Nat) (cPos : Option Nat) (fill : Int)
    (a c : Val) : Int :=
  let g := group_rows f ixPos cPos a c
  if g.isEmpty then fill
  else (g.map fun r => valToInt ((r.get? vPos).getD (.vstr []))).sum

/-- A pivot result: observed index-key values, observed columns-key
values, the filled body (one row per index value, one column per columns
value), and — when margins are requested — the grand-total row and the
per-row total column, both computed from the filled body. -/
structure PivotOut where
  ixVals : List Val
  colVals : List Val
  body : List (List Int)
  marginRow : Option (List Int)
  marginCol : Option (List Int)
deriving DecidableEq, Repr

/-- The grand-total row: one column sum per output column, computed over
the (already filled) body. -/
def margin_totals (body : List (List Int)) (ncols : Nat) : List Int :=
  (List.range ncols).map fun j => (body.map fun row => (row.get? j).getD 0).sum

/-- Modelled from the spec: the `pd.pivot_table(df, index=..., columns=...,
values=..., aggfunc=..., fill_value=..., dropna=False, margins=...)` call,
whose implementation lives in pandas, not in this repository.  Rows are
grouped by the index key (cross-tabulated by the columns key when one is
given), the values column is aggregated per group, every combination of
observed index value and observed columns value receives either the
aggregate or the fill value, and margin totals are computed afterwards
from the filled body.  A named column absent from the frame raises a
`KeyError`. -/
def pivot_table (f : Frame) (ixName : PyStr) (cName : Option PyStr)
    (vName : PyStr) (fill : Int) (margins : Bool) : Except PyStr PivotOut :=
  match f.columns.findIdx? (fun c => c = ixName) with
  | none => .error "KeyError".data
  | some ixPos =>
    match f.columns.findIdx? (fun c => c = vName) with
    | none => .error "KeyError".data
    | some vPos =>
      match cName with
      | none =>
        let ixVals := (column_values f ixPos).dedup
        let colVals := [Val.vstr vName]
        let body := ixVals.map fun a =>
          colVals.map fun c => aggCell f ixPos vPos none fill a c
        .ok { ixVals := ixVals, colVals := colVals, body := body,
              marginRow := if margins then some (margin_totals body colVals.length) else none,
              marginCol := if margins then some (body.map List.sum) else none }
      | some cn =>
        match f.columns.findIdx? (fun c => c = cn) with
        | none => .error "KeyError".data
        | some cPos =>
          let ixVals := (column_values f ixPos).dedup
          let colVals := (column_values f cPos).dedup
          let body := ixVals.map fun a =>
            colVals.map fun c => aggCell f ixPos vPos (some cPos) fill a c
          .ok { ixVals := ixVals, colVals := colVals, body := body,
                marginRow := if margins then some (margin_totals body colVals.length) else none,
                marginCol := if margins then some (body.map List.sum) else none }

/-- A pivot specification as read from the config:
`source`, `index`, optional `columns`, `values`, `aggfunc` (default
"sum"), `fillna` (default 0), `margins` (default false), optional
`name`. -/
structure PivotSpec where
  source : PyStr
  index : PyStr
  columnsKey : Option PyStr := none
  valuesKey : PyStr
  aggfunc : PyStr := "sum".data
  fillna : Int := 0
  margins : Bool := false
  name : Option PyStr := none
deriving DecidableEq, Repr

/-- `p.get("name", f"pivot_{src}")`. -/
def pivot_name (p : PivotSpec) : PyStr :=
  match p.name with
  | some n => n
  | none => "pivot_".data ++ p.source

/-- The stderr warning `[warn] pivot source not found: {src}`. -/
def warn_missing_source (src : PyStr) : PyStr :=
  "[warn] pivot source not found: ".data ++ src

/-- `build_pivots(summary_cfg, frames)`: for each spec, resolve the
source in the registry — warning and skip when absent — then compute the
pivot and record it under the spec's name.  An exception raised by the
pivot computation propagates (there is no handler in the loop), so the
result is the list of warnings printed before the failure paired with
either the pivot mapping or the propagated error. -/
def build_pivots : List PivotSpec → (PyStr → Option Frame) →
    List PyStr × Except PyStr (List (PyStr × PivotOut))
  | [], _ => ([], .ok [])
  | p :: rest, frames =>
    match frames p.source with
    | none =>
      let r := build_pivots rest frames
      (warn_missing_source p.source :: r.1, r.2)
    | some df =>
      match pivot_table df p.index p.columnsKey p.valuesKey p.fillna p.margins with
      | .error e => ([], .error e)
      | .ok piv =>
        let r := build_pivots rest frames
        (r.1, r.2.map fun ps => (pivot_name p, piv) :: ps)

/-- C4: every combination of an observed index-key value and an observed
columns-key value appears in the pivot body, holding the aggregate for
non-empty groups and the fill value for empty ones; margin totals are
computed from the filled body, so they reflect filled cells rather than
omitted ones. -/
theorem c4_pivot_fill_completeness
    (f : Frame) (ixName cName vName : PyStr) (fill : Int) (margins : Bool)
    (out : PivotOut) (ixPos cPos vPos : Nat)
    (hix : f.columns.findIdx? (fun c => c = ixName) = some ixPos)
    (hv : f.columns.findIdx? (fun c => c = vName) = some vPos)
    (hc : f.columns.findIdx? (fun c => c = cName) = some cPos)
    (hout : pivot_table f ixName (some cName) vName fill margins = .ok out)
    (a c : Val)
    (ha : a ∈ column_values f ixPos)
    (hcv : c ∈ column_values f cPos) :
    (∃ i j, out.ixVals.get? i = some a ∧ out.colVals.get? j = some c ∧
      (out.body.get? i).bind (fun row => row.get? j) =
        some (aggCell f ixPos vPos (some cPos) fill a c)) ∧
    (margins = true →
      out.marginRow = some (margin_totals out.body out.colVals.length) ∧
      out.marginCol = some (out.body.map List.sum)) := by
  simp only [pivot_table, hix, hv, hc] at hout
  rw [Except.ok.injEq] at hout
  subst hout
  constructor
  · have ha' : a ∈ (column_values f ixPos).dedup := List.mem_dedup.mpr ha
    have hc' : c ∈ (column_values f cPos).dedup := List.mem_dedup.mpr hcv
    obtain ⟨i, hi⟩ := List.get?_of_mem ha'
    obtain ⟨j, hj⟩ := List.get?_of_mem hc'
    refine ⟨i, j, hi, hj, ?_⟩
    rw [List.get?_map, hi]
    simp only [Option.map_some', Option.some_bind]
    rw [List.get?_map, hj]
    rfl
  · intro hm
    subst hm
    exact ⟨rfl, rfl⟩

/-- The two-key frame used to witness C4: regions × quarters with an
amount column; the (N, Q2) combination never occurs in the data. -/
def qFrame : Frame :=
  { columns := ["region".data, "quarter".data, "amount".data],
    rows := [[.vstr "N".data, .vstr "Q1".data, .vint 10],
             [.vstr "S".data, .vstr "Q2".data, .vint 20]] }

/-- The pivot of `qFrame` by region × quarter with margins. -/
def qOut : PivotOut :=
  { ixVals := [.vstr "N".data, .vstr "S".data],
    colVals := [.vstr "Q1".data, .vstr "Q2".data],
    body := [[10, 0], [0, 20]],
    marginRow := some [10, 20],
    marginCol := some [10, 20] }

/-- Witness for C4: in the pivot of `qFrame`, the absent combination
(region N, quarter Q2) still appears, with the fill value. -/
theorem c4_pivot_fill_completeness_witness :
    qFrame.columns.findIdx? (fun c => c = "region".data) = some 0 ∧
    qFrame.columns.findIdx? (fun c => c = "amount".data) = some 2 ∧
    qFrame.columns.findIdx? (fun c => c = "quarter".data) = some 1 ∧
    pivot_table qFrame "region".data (some "quarter".data) "amount".data 0 true =
      .ok qOut ∧
    (Val.vstr "N".data) ∈ column_values qFrame 0 ∧
    (Val.vstr "Q2".data) ∈ column_values qFrame 1 ∧
    ((∃ i j, qOut.ixVals.get? i = some (.vstr "N".data) ∧
        qOut.colVals.get? j = some (.vstr "Q2".data) ∧
        (qOut.body.get? i).bind (fun row => row.get? j) =
          some (aggCell qFrame 0 2 (some 1) 0 (.vstr "N".data) (.vstr "Q2".data))) ∧
      (true = true →
        qOut.marginRow = some (margin_totals qOut.body qOut.colVals.length) ∧
        qOut.marginCol = some (qOut.body.map List.sum))) :=
  ⟨rfl, rfl, rfl, rfl, by decide, by decide,
   c4_pivot_fill_completeness qFrame "region".data "quarter".data "amount".data
     0 true qOut 0 1 2 rfl rfl rfl rfl (.vstr "N".data) (.vstr "Q2".data)
     (by decide) (by decide)⟩

/-- C6: a pivot specification whose source is not in the registry
produces a warning and no output dataset, and the remaining
specifications are processed exactly as they would have been without it;
the run is not aborted. -/
theorem c6_missing_source_warn_and_skip (p : PivotSpec) (rest : List PivotSpec)
    (frames : PyStr → Option Frame) (h : frames p.source = none) :
    build_pivots (p :: rest) frames =
      (warn_missing_source p.source :: (build_pivots rest frames).1,
       (build_pivots rest frames).2) := by
  simp [build_pivots, h]

/-- An empty registry. -/
def noFrames : PyStr → Option Frame := fun _ => none

/-- A pivot spec whose source resolves nowhere. -/
def specA : PivotSpec :=
  { source := "missing".data, index := "region".data, valuesKey := "amount".data }

/-- Witness for C6: one spec with an unresolved source yields exactly
one warning and the empty pivot mapping. -/
theorem c6_missing_source_warn_and_skip_witness :
    noFrames specA.source = none ∧
    build_pivots [specA] noFrames =
      (warn_missing_source specA.source :: (build_pivots [] noFrames).1,
       (build_pivots [] noFrames).2) :=
  ⟨rfl, c6_missing_source_warn_and_skip specA [] noFrames rfl⟩

/-- The single-key frame used for C7. -/
def salesFrame : Frame :=
  { columns := ["region".data, "amount".data],
    rows := [[.vstr "N".data, .vint 10], [.vstr "S".data, .vint 20]] }

/-- A registry holding only `salesFrame` under "sales". -/
def someFrames : PyStr → Option Frame :=
  fun k => if k = "sales".data then some salesFrame else none

/-- A spec whose values column does not exist in the source frame: its
pivot computation raises. -/
def badSpec : PivotSpec :=
  { source := "sales".data, index := "region".data, valuesKey := "missing".data }

/-- A well-formed spec over the same source. -/
def goodSpec : PivotSpec :=
  { source := "sales".data, index := "region".data, valuesKey := "amount".data }

/-- The pivot `goodSpec` produces when processed on its own. -/
def goodOut : PivotOut :=
  { ixVals := [.vstr "N".data, .vstr "S".data],
    colVals := [.vstr "amount".data],
    body := [[10], [20]],
    marginRow := none,
    marginCol := none }

/-- Counterexample to C7: `goodSpec` alone yields its pivot, but placed
after `badSpec` — whose values column is missing, raising a KeyError —
the whole run errors and no subsequent pivot is produced, so a failure
beyond the handled missing-source case does abort the remaining
specifications. -/
theorem c7_isolation_counterexample :
    build_pivots [badSpec, goodSpec] someFrames = ([], .error "KeyError".data) ∧
    build_pivots [goodSpec] someFrames =
      ([], .ok [("pivot_sales".data, goodOut)]) :=
  ⟨rfl, rfl⟩

/-- C7 amended: only the missing-source case is isolated; any error
raised by the per-spec pivot computation propagates out of
`build_pivots`, aborting all remaining specifications. -/
theorem c7_amended_error_propagates (p : PivotSpec) (rest : List PivotSpec)
    (frames : PyStr → Option Frame) (df : Frame) (e : PyStr)
    (hdf : frames p.source = some df)
    (herr : pivot_table df p.index p.columnsKey p.valuesKey p.fillna p.margins =
      .error e) :
    build_pivots (p :: rest) frames = ([], .error e) := by
  simp [build_pivots, hdf, herr]

/-- Witness for C7 amended: `badSpec`'s KeyError aborts the run even
though `goodSpec` follows it. -/
theorem c7_amended_error_propagates_witness :
    someFrames badSpec.source = some salesFrame ∧
    pivot_table salesFrame badSpec.index badSpec.columnsKey badSpec.valuesKey
      badSpec.fillna badSpec.margins = .error "KeyError".data ∧
    build_pivots [badSpec, goodSpec] someFrames = ([], .error "KeyError".data) :=
  ⟨rfl, rfl,
   c7_amended_error_propagates badSpec [goodSpec] someFrames salesFrame
     "KeyError".data rfl rfl⟩

/-! ## Chart binder: `add_chart_from_table`

    first_col_letter = table_range.split(":")[0].rstrip("0123456789")
    start_row = int("".join([c for c in table_range.split(":")[0] if c.isdigit()]))
    chart.add_series({
        "categories": f"={sheet_name}!{table_range.split(':')[0]}:"
                      f"{first_col_letter}{table_range.split(':')[1][len(first_col_letter):]}",
        "values": f"={sheet_name}!{chr(ord(first_col_letter)+1)}{start_row}:"
                  f"{table_range.split(':')[1]}",
    })
-/

/-- Python `str.split(sep)` (single-character separator). -/
def pySplit (sep : Char) : PyStr → List PyStr
  | [] => [[]]
  | c :: rest =>
    let r := pySplit sep rest
    if c = sep then [] :: r
    else
      match r with
      | [] => [[c]]
      | h :: t => (c :: h) :: t

/-- Python `str.rstrip("0123456789")`. -/
def rstripDigits (s : PyStr) : PyStr := (s.reverse.dropWhile Char.isDigit).reverse

/-- The digit characters of `s`, in order. -/
def digitsOf (s : PyStr) : PyStr := s.filter Char.isDigit

/-- Python `int(s)` on a digit string; raises ValueError on "". -/
def pyInt (s : PyStr) : Except PyStr Nat :=
  if s.isEmpty then .error "ValueError".data
  else .ok (s.foldl (fun a c => a * 10 + (c.toNat - 48)) 0)

/-- Python `ord(s)`: the code point of a one-character string; raises a
TypeError otherwise. -/
def pyOrd (s : PyStr) : Except PyStr Nat :=
  match s with
  | [c] => .ok c.toNat
  | _ => .error "TypeError".data

/-- The body of `add_chart_from_table` once the range is split at ":"
into a start part `st` and an end part `en`: the category and value
series strings handed to the chart. -/
def chart_ranges_core (sheetName st en : PyStr) : Except PyStr (PyStr × PyStr) :=
  let fcl := rstripDigits st
  match pyInt (digitsOf st) with
  | .error e => .error e
  | .ok startRow =>
    match pyOrd fcl with
    | .error e => .error e
    | .ok o =>
      .ok ('=' :: sheetName ++ '!' :: (st ++ ':' :: (fcl ++ en.drop fcl.length)),
           '=' :: sheetName ++ '!' :: (Char.ofNat (o + 1) :: natChars startRow ++ ':' :: en))

/-- The category/value range strings `add_chart_from_table` computes
from a table range; a range without ":" raises an IndexError. -/
def add_chart_from_table_ranges (sheetName tableRange : PyStr) :
    Except PyStr (PyStr × PyStr) :=
  match pySplit ':' tableRange with
  | st :: en :: _ => chart_ranges_core sheetName st en
  | _ => .error "IndexError".data

lemma char_digit_toNat : ∀ d < 10, (Char.ofNat (48 + d)).toNat = 48 + d := by decide

lemma a1LettersAux_char_bound :
    ∀ fuel n c, c ∈ a1LettersAux fuel n → 65 ≤ c.toNat ∧ c.toNat ≤ 90 := by
  intro fuel
  induction fuel with
  | zero =>
    intro n c hc
    cases n <;> simp [a1LettersAux] at hc
  | succ f ih =>
    intro n c hc
    cases n with
    | zero => simp [a1LettersAux] at hc
    | succ m =>
      rw [a1LettersAux] at hc
      rcases List.mem_append.mp hc with h | h
      · exact ih _ _ h
      · have hcm : c = Char.ofNat (65 + m % 26) := by simpa using h
        subst hcm
        rw [char_upper_toNat (m % 26) (Nat.mod_lt m (by norm_num))]
        have := Nat.mod_lt m (show 0 < 26 by norm_num)
        omega

lemma natCharsAux_char_bound :
    ∀ fuel n c, c ∈ natCharsAux fuel n → 48 ≤ c.toNat ∧ c.toNat ≤ 57 := by
  intro fuel
  induction fuel with
  | zero =>
    intro n c hc
    cases n <;> simp [natCharsAux] at hc
  | succ f ih =>
    intro n c hc
    cases n with
    | zero => simp [natCharsAux] at hc
    | succ m =>
      rw [natCharsAux] at hc
      rcases List.mem_append.mp hc with h | h
      · exact ih _ _ h
      · have hcm : c = Char.ofNat (48 + (m + 1) % 10) := by simpa using h
        subst hcm
        rw [char_digit_toNat ((m + 1) % 10) (Nat.mod_lt (m + 1) (by norm_num))]
        have := Nat.mod_lt (m + 1) (show 0 < 10 by norm_num)
        omega

lemma natChars_char_bound (n : Nat) (c : Char) (hc : c ∈ natChars n) :
    48 ≤ c.toNat ∧ c.toNat ≤ 57 := by
  unfold natChars at hc
  by_cases h : n = 0
  · rw [if_pos h] at hc
    have : c = '0' := by simpa using hc
    subst this
    decide
  · rw [if_neg h] at hc
    exact natCharsAux_char_bound n n c hc

lemma a1_char_ne_colon (colIdx rowIdx : Nat) : ∀ c ∈ a1 colIdx rowIdx, c ≠ ':' := by
  intro c hc heq
  have h58 : (':').toNat = 58 := by decide
  unfold a1 at hc
  rcases List.mem_append.mp hc with h | h
  · have := a1LettersAux_char_bound _ _ _ h
    rw [heq, h58] at this
    omega
  · have := natChars_char_bound _ _ h
    rw [heq, h58] at this
    omega

lemma pySplit_no_sep (sep : Char) (xs : PyStr) (h : ∀ c ∈ xs, c ≠ sep) :
    pySplit sep xs = [xs] := by
  induction xs with
  | nil => rfl
  | cons x t ih =>
    have hx : ¬ x = sep := h x (List.mem_cons_self x t)
    have ht := ih fun c hc => h c (List.mem_cons_of_mem x hc)
    simp only [pySplit, ht, if_neg hx]

lemma pySplit_append (sep : Char) (xs ys : PyStr) (h : ∀ c ∈ xs, c ≠ sep) :
    pySplit sep (xs ++ sep :: ys) = xs :: pySplit sep ys := by
  induction xs with
  | nil => simp [pySplit]
  | cons x t ih =>
    have hx : ¬ x = sep := h x (List.mem_cons_self x t)
    have ht := ih fun c hc => h c (List.mem_cons_of_mem x hc)
    simp only [List.cons_append, pySplit, if_neg hx]
    rw [show t.append (sep :: ys) = t ++ sep :: ys from rfl, ht]

lemma a1LettersAux_zero (fuel : Nat) : a1LettersAux fuel 0 = [] := by
  cases fuel <;> rfl

lemma a1LettersAux_single (fuel m : Nat) (hm : m ≤ 25) (hf : m + 1 ≤ fuel) :
    a1LettersAux fuel (m + 1) = [Char.ofNat (65 + m)] := by
  cases fuel with
  | zero => omega
  | succ f =>
    rw [a1LettersAux]
    rw [Nat.div_eq_of_lt (by omega), Nat.mod_eq_of_lt (by omega), a1LettersAux_zero]
    rfl

lemma to_letters_single (n : Nat) (h : n ≤ 25) :
    to_letters n = [Char.ofNat (65 + n)] :=
  a1LettersAux_single (n + 1) n h (le_refl _)

lemma to_letters_double (c : Nat) (h1 : 26 ≤ c) (h2 : c ≤ 701) :
    to_letters c = [Char.ofNat (65 + c / 26 - 1), Char.ofNat (65 + c % 26)] := by
  unfold to_letters
  rw [a1LettersAux]
  obtain ⟨m, hm⟩ : ∃ m, c / 26 = m + 1 :=
    ⟨c / 26 - 1, by
      have : 1 ≤ c / 26 := (Nat.one_le_div_iff (by norm_num)).mpr h1
      omega⟩
  have hm25 : m ≤ 25 := by
    have : c / 26 ≤ 701 / 26 := Nat.div_le_div_right h2
    omega
  have hmc : m + 1 ≤ c := by
    have := Nat.div_le_self c 26
    omega
  rw [hm, a1LettersAux_single c m hm25 hmc]
  have h65 : 65 + (m + 1) - 1 = 65 + m := by omega
  rw [h65]
  rfl

/-- Counterexample to C5: for the table range "A1:C4" (header in row 1,
three data rows in rows 2–4) the computed category range is
"=S!A1:A4" and the value range "=S!B1:C4" — both start at the header
row, not at the first data row as the claim states ("=S!A2:A4" and
"=S!B2:C4"); and for the 27-column range "A1:AA4" the computed category
range is "=S!A1:AA4", spanning every column of the table rather than
covering exactly column 0. -/
theorem c5_ranges_counterexample :
    (add_chart_from_table_ranges "S".data "A1:C4".data =
      .ok ("=S!A1:A4".data, "=S!B1:C4".data) ∧
     ("=S!A1:A4".data, "=S!B1:C4".data) ≠ ("=S!A2:A4".data, "=S!B2:C4".data)) ∧
    (add_chart_from_table_ranges "S".data "A1:AA4".data =
      .ok ("=S!A1:AA4".data, "=S!B1:AA4".data) ∧
     "=S!A1:AA4".data ≠ "=S!A2:A4".data) :=
  ⟨⟨rfl, by decide⟩, ⟨rfl, by decide⟩⟩

/-- C5 amended: for every table range the orchestrator hands to the
chart binder (top-left "A1", C ≥ 1 columns, R data rows), both computed
ranges start at the table's first row — the header row is included, not
excluded.  The value range runs from column 1 at the header row to the
bottom-right corner.  The category range is "=sheet!A1:A" followed by
the bottom-right address stripped of its first column letter: for
C ≤ 26 columns that is column 0 from the header row through the last
row, but for 27 ≤ C ≤ 702 columns the second column letter survives, so
the category range ends in a two-letter column (e.g. "=S!A1:AA4" for
C = 27) and spans across the table instead of covering exactly
column 0. -/
theorem c5_amended_ranges_include_header (sheet : PyStr) (R C : Nat)
    (h1 : 1 ≤ C) :
    (add_chart_from_table_ranges sheet (a1 0 0 ++ ':' :: a1 (C - 1) R) =
      .ok ('=' :: sheet ++ '!' ::
            ("A1:A".data ++ (to_letters (C - 1) ++ natChars (R + 1)).drop 1),
           '=' :: sheet ++ '!' :: ("B1:".data ++ to_letters (C - 1) ++ natChars (R + 1)))) ∧
    (C ≤ 26 →
      (to_letters (C - 1) ++ natChars (R + 1)).drop 1 = natChars (R + 1)) ∧
    (27 ≤ C → C ≤ 702 →
      (to_letters (C - 1) ++ natChars (R + 1)).drop 1 =
        Char.ofNat (65 + (C - 1) % 26) :: natChars (R + 1)) := by
  refine ⟨?_, ?_, ?_⟩
  · have hA1 : a1 0 0 = ['A', '1'] := by decide
    have hsplit : pySplit ':' (a1 0 0 ++ ':' :: a1 (C - 1) R) =
        ['A', '1'] :: [a1 (C - 1) R] := by
      rw [hA1, pySplit_append ':' ['A', '1'] _ (by decide),
        pySplit_no_sep ':' _ (a1_char_ne_colon (C - 1) R)]
    have hstep : add_chart_from_table_ranges sheet (a1 0 0 ++ ':' :: a1 (C - 1) R) =
        chart_ranges_core sheet ['A', '1'] (a1 (C - 1) R) := by
      unfold add_chart_from_table_ranges
      rw [hsplit]
    rw [hstep]
    have hcore : ∀ en : PyStr, chart_ranges_core sheet ['A', '1'] en =
        .ok ('=' :: sheet ++ '!' :: (['A', '1'] ++ ':' :: ('A' :: en.drop 1)),
             '=' :: sheet ++ '!' :: ('B' :: '1' :: ':' :: en)) := fun _ => rfl
    rw [hcore]
    rfl
  · intro h26
    rw [to_letters_single (C - 1) (by omega)]
    rfl
  · intro h27 h702
    rw [to_letters_double (C - 1) (by omega) (by omega)]
    rfl

/-- Witness for C5 amended at C = 27 columns, R = 3 data rows: both
ranges start at the header row, and the category range's end cell keeps
the second column letter, spanning to column "AA". -/
theorem c5_amended_ranges_include_header_witness :
    1 ≤ 27 ∧
    ((add_chart_from_table_ranges "S".data (a1 0 0 ++ ':' :: a1 (27 - 1) 3) =
      .ok ('=' :: "S".data ++ '!' ::
            ("A1:A".data ++ (to_letters (27 - 1) ++ natChars (3 + 1)).drop 1),
           '=' :: "S".data ++ '!' :: ("B1:".data ++ to_letters (27 - 1) ++ natChars (3 + 1)))) ∧
    (27 ≤ 26 →
      (to_letters (27 - 1) ++ natChars (3 + 1)).drop 1 = natChars (3 + 1)) ∧
    (27 ≤ 27 → 27 ≤ 702 →
      (to_letters (27 - 1) ++ natChars (3 + 1)).drop 1 =
        Char.ofNat (65 + (27 - 1) % 26) :: natChars (3 + 1))) :=
  ⟨by decide, c5_amended_ranges_include_header "S".data 3 27 (by decide)⟩
